import Mathlib

/-!
Verification of the Photo-Scrubber redaction pipeline (`backend/app/main.py`).

The pipeline operates on an in-memory colour buffer.  External capabilities
(the Tesseract text detector, the Haar face detector, the HOG body detector,
`cv2.inpaint` and `cv2.GaussianBlur`) are modelled as parameters: detector
outputs are lists of hits handed to the scrubbers, inpainting and Gaussian
smoothing are abstract functions.  All geometry, filtering, padding, clamping,
masking and orchestration logic is translated directly from the source.

Python floating point note: the source computes `int(min(w,h)*0.15)`,
`int(0.25*w)` and `int(x/0.75)` on nonnegative machine integers.  For every
nonnegative integer argument in the representable range these coincide with
the exact rational floors `3*m/20`, `w/4` and `4*x/3` (checked exhaustively
for arguments up to 2·10⁶, far beyond any image dimension), so the embedding
uses natural-number floor division.
-/

namespace PhotoScrubber

/-- A BGR pixel: three channel values. -/
def Pixel : Type := Nat × Nat × Nat

instance : DecidableEq Pixel := by unfold Pixel; infer_instance

/-- An in-memory image buffer: width `W`, height `H`, and the pixel at
row `r`, column `c` is `pix r c` (row-major, as in the numpy array). -/
structure Buffer where
  W : Nat
  H : Nat
  pix : Nat → Nat → Pixel

/-- The all-zero 0×0 buffer, used only as a `getD` default. -/
def emptyBuffer : Buffer := ⟨0, 0, fun _ _ => (0, 0, 0)⟩

/-- A binary mask canvas: `m r c = true` means the pixel is marked
for inpainting. -/
structure Mask where
  W : Nat
  H : Nat
  m : Nat → Nat → Bool

/-- `np.zeros(gray.shape, dtype=np.uint8)`: the all-unset mask. -/
def emptyMask (W H : Nat) : Mask := ⟨W, H, fun _ _ => false⟩

/-- `mask.max() != 0`: true iff some pixel inside the canvas is set. -/
def maskNonempty (mk : Mask) : Bool :=
  (List.range mk.H).any fun r => (List.range mk.W).any fun c => mk.m r c

/-- One Tesseract detection hit: recognised text, confidence (`none` when the
raw value is absent or does not parse as a number, in which case the code
falls back to `-1.0`), and the bounding box `left`/`top`/`width`/`height`
(Tesseract reports nonnegative machine integers). -/
structure TextHit where
  text : String
  conf : Option ℚ
  x : Nat
  y : Nat
  w : Nat
  h : Nat

/-- `conf = float(conf_str)` with `except: conf = -1.0`. -/
def confOf (t : TextHit) : ℚ := t.conf.getD (-1)

/-- Python's `str.strip()`: drop leading and trailing whitespace. -/
def pyStrip (s : String) : String :=
  ⟨((s.data.dropWhile Char.isWhitespace).reverse.dropWhile
      Char.isWhitespace).reverse⟩

/-- The hit filter: `if not txt or conf < 60: continue`, where
`txt = (data["text"][i] or "").strip()`.  A hit survives iff its stripped
text is nonempty and its confidence is at least 60. -/
def survives (t : TextHit) : Bool :=
  pyStrip t.text != "" && decide ((60 : ℚ) ≤ confOf t)

/-- `pad = max(2, int(min(w, h) * 0.15))`; `int` truncation of the float
product equals the exact floor `3 * min w h / 20` on this range. -/
def padOf (w h : Nat) : Nat := max 2 (3 * min w h / 20)

/-- Whether `cv2.rectangle(mask, (x2, y2), (x2 + w2, y2 + h2), 255, -1)`
paints canvas pixel `(r, c)` for this hit, where
`x2 = max(0, x - pad)`, `y2 = max(0, y - pad)`,
`w2 = min(W - x2, w + 2*pad)`, `h2 = min(H - y2, h + 2*pad)`.
OpenCV fills the rectangle spanned by the two corner points inclusively
and clips it to the canvas. -/
def paintRect (W H : Nat) (t : TextHit) (r c : Nat) : Bool :=
  let pad := padOf t.w t.h
  let x2 : Nat := t.x - pad
  let y2 : Nat := t.y - pad
  let w2 : Int := min ((W : Int) - x2) (t.w + 2 * pad)
  let h2 : Int := min ((H : Int) - y2) (t.h + 2 * pad)
  let cLo : Int := min (x2 : Int) (x2 + w2)
  let cHi : Int := max (x2 : Int) (x2 + w2)
  let rLo : Int := min (y2 : Int) (y2 + h2)
  let rHi : Int := max (y2 : Int) (y2 + h2)
  decide (cLo ≤ (c : Int)) && decide ((c : Int) ≤ cHi) && decide (c < W) &&
    (decide (rLo ≤ (r : Int)) && decide ((r : Int) ≤ rHi) && decide (r < H))

/-- Painting one hit's rectangle into the mask (additive / union semantics). -/
def paintHit (mk : Mask) (t : TextHit) : Mask :=
  ⟨mk.W, mk.H, fun r c => paintRect mk.W mk.H t r c || mk.m r c⟩

/-- The detection loop of `scrub_text`: fold over all hits, painting the
padded box of every surviving hit into the mask. -/
def buildMask (W H : Nat) (hits : List TextHit) : Mask :=
  hits.foldl (fun mk t => if survives t then paintHit mk t else mk) (emptyMask W H)

/-- `scrub_text`: build the mask from the detector's hits; if the mask is
all-zero return the buffer unchanged, otherwise hand buffer and mask to the
external inpainter (`cv2.inpaint`, Telea, radius 3). -/
def scrubText (inpaint : Buffer → Mask → Buffer) (hits : List TextHit)
    (bgr : Buffer) : Buffer :=
  let mask := buildMask bgr.W bgr.H hits
  if maskNonempty mask then inpaint bgr mask else bgr

/-- `k = max(3, int(k) | 1)` in `_blur_region`: the kernel size actually
handed to `cv2.GaussianBlur`. -/
def kernelOf (k : Int) : Int := max 3 (Int.lor k 1)

/-- The sub-buffer `bgr[y1:y2, x1:x2]`. -/
def roiOf (b : Buffer) (y1 x1 y2 x2 : Nat) : Buffer :=
  ⟨x2 - x1, y2 - y1, fun r c => b.pix (y1 + r) (x1 + c)⟩

/-- `_blur_region(bgr, x, y, w, h, k)`: clamp the rectangle to the buffer,
return the buffer untouched when the clamped area is empty, otherwise
replace exactly the clamped sub-rectangle by the output of the external
Gaussian smoother `g` (which receives the normalised kernel size and the
region of interest and depends on nothing else). -/
def blurRegion (g : Int → Buffer → Buffer) (b : Buffer)
    (x y w h k : Int) : Buffer :=
  let x1 : Int := max 0 x
  let y1 : Int := max 0 y
  let x2 : Int := min (b.W : Int) (x + w)
  let y2 : Int := min (b.H : Int) (y + h)
  if x2 ≤ x1 ∨ y2 ≤ y1 then b
  else
    let blurred := g (kernelOf k) (roiOf b y1.toNat x1.toNat y2.toNat x2.toNat)
    ⟨b.W, b.H, fun r c =>
      if x1.toNat ≤ c ∧ c < x2.toNat ∧ y1.toNat ≤ r ∧ r < y2.toNat then
        blurred.pix (r - y1.toNat) (c - x1.toNat)
      else b.pix r c⟩

/-- A frontal-face cascade hit: nonnegative integer box from
`detectMultiScale`. -/
structure FaceHit where
  x : Nat
  y : Nat
  w : Nat
  h : Nat

/-- `pad = int(0.25 * w)`, exactly `w / 4` by floor division. -/
def facePad (w : Nat) : Nat := w / 4

/-- One iteration of the face loop:
`_blur_region(out, x - pad, y - pad, w + 2*pad, h + 2*pad, blur_strength)`. -/
def faceStep (g : Int → Buffer → Buffer) (k : Int) (b : Buffer)
    (f : FaceHit) : Buffer :=
  let pad : Int := facePad f.w
  blurRegion g b ((f.x : Int) - pad) ((f.y : Int) - pad)
    ((f.w : Int) + 2 * pad) ((f.h : Int) + 2 * pad) k

/-- A HOG body-detector hit: box plus SVM weight. -/
structure BodyHit where
  x : Nat
  y : Nat
  w : Nat
  h : Nat
  weight : ℚ

/-- `scale = 0.75 if max(out.shape[:2]) > 900 else 1.0`: whether the buffer
is downscaled before body detection. -/
def bodyScaled (b : Buffer) : Bool := 900 < max b.H b.W

/-- `int(v / scale)` for `scale = 0.75` when downscaled (exactly `4*v/3` by
floor division), identity otherwise. -/
def remapCoord (scaled : Bool) (v : Nat) : Nat :=
  if scaled then 4 * v / 3 else v

/-- One iteration of the body loop: skip hits with weight below `0.5`, remap
the surviving box back to full resolution, and blur it. -/
def bodyStep (g : Int → Buffer → Buffer) (k : Int) (scaled : Bool)
    (b : Buffer) (hb : BodyHit) : Buffer :=
  if hb.weight < 1 / 2 then b
  else
    blurRegion g b (remapCoord scaled hb.x) (remapCoord scaled hb.y)
      (remapCoord scaled hb.w) (remapCoord scaled hb.h) k

/-- `scrub_people`: work on a copy of the input, blur every face hit, then —
only when `detect_bodies` is set — blur every surviving body hit at
full-resolution coordinates.  The face and body detections are outputs of
the external detectors and enter as parameters. -/
def scrubPeople (g : Int → Buffer → Buffer) (k : Int) (detectBodies : Bool)
    (faces : List FaceHit) (bodies : List BodyHit) (bgr : Buffer) : Buffer :=
  let out := bgr
  let out := faces.foldl (faceStep g k) out
  if detectBodies then
    let scaled := bodyScaled out
    bodies.foldl (bodyStep g k scaled) out
  else out

/-- The per-request configuration (`Options` dataclass). -/
structure Options where
  blur_people : Bool
  remove_text : Bool
  blur_strength : Int
  detect_bodies : Bool

/-- `process_image`: text redaction first (iff `remove_text`), then person
redaction (iff `blur_people`), on the working buffer. -/
def processImage (inpaint : Buffer → Mask → Buffer) (textHits : List TextHit)
    (g : Int → Buffer → Buffer) (faces : List FaceHit) (bodies : List BodyHit)
    (opts : Options) (bgr : Buffer) : Buffer :=
  let b1 := if opts.remove_text then scrubText inpaint textHits bgr else bgr
  if opts.blur_people then
    scrubPeople g opts.blur_strength opts.detect_bodies faces bodies b1
  else b1

/-- `blur_strength = max(3, min(151, int(blur_strength)))` in the endpoint. -/
def clampStrength (b : Int) : Int := max 3 (min 151 b)

/-- The endpoint's error taxonomy: which core stage raised. -/
inductive Err where
  | decodeErr
  | textErr
  | peopleErr
  | encodeErr
deriving DecidableEq

/-- The exception flow of the `process` endpoint: decode, then
`process_image` (its two conditional stages), then PNG encoding.  The body
contains no exception handler, so an error raised by any stage aborts the
invocation; this is the standard `Except` rendering of straight-line Python
code whose calls may raise. -/
def processE {P : Type} (decode : Except Err Buffer)
    (textFn peopleFn : Buffer → Except Err Buffer)
    (encodeFn : Buffer → Except Err P)
    (removeText blurPeople : Bool) : Except Err P :=
  Except.bind decode fun b0 =>
    Except.bind (if removeText then textFn b0 else .ok b0) fun b1 =>
      Except.bind (if blurPeople then peopleFn b1 else .ok b1) fun b2 =>
        encodeFn b2

/-! Heap model of the in-place mutation in `scrub_people`.

`scrub_people` receives a reference to the caller's numpy array, makes a
copy (`out = bgr.copy()`), and every `_blur_region` call mutates the copy in
place.  To state that the caller's array is never written, buffers live in an
explicit store (a list of buffers addressed by index) and each
`_blur_region(out, ...)` call becomes an update of the store at `out`'s
index. -/

/-- In-place `_blur_region` on the store entry at `idx`. -/
def blurHeap (g : Int → Buffer → Buffer) (heap : List Buffer) (idx : Nat)
    (x y w h k : Int) : List Buffer :=
  heap.set idx (blurRegion g (heap.getD idx emptyBuffer) x y w h k)

/-- `scrub_people` on the store: allocate the copy of the source buffer at a
fresh index, run the face loop and (optionally) the body loop as in-place
updates of that copy, and return the final store together with the copy's
index. -/
def scrubPeopleHeap (g : Int → Buffer → Buffer) (k : Int)
    (detectBodies : Bool) (faces : List FaceHit) (bodies : List BodyHit)
    (heap : List Buffer) (src : Nat) : List Buffer × Nat :=
  let outIdx := heap.length
  let h0 := heap ++ [heap.getD src emptyBuffer]
  let h1 := faces.foldl (fun hp f =>
    let pad : Int := facePad f.w
    blurHeap g hp outIdx ((f.x : Int) - pad) ((f.y : Int) - pad)
      ((f.w : Int) + 2 * pad) ((f.h : Int) + 2 * pad) k) h0
  let h2 :=
    if detectBodies then
      let scaled := bodyScaled (h1.getD outIdx emptyBuffer)
      bodies.foldl (fun hp hb =>
        if hb.weight < 1 / 2 then hp
        else blurHeap g hp outIdx (remapCoord scaled hb.x)
          (remapCoord scaled hb.y) (remapCoord scaled hb.w)
          (remapCoord scaled hb.h) k) h1
    else h1
  (h2, outIdx)

/-! Spec-phrased formulas.

For the refinement claims these render the spec's wording — padding margins
obtained by rounding to the nearest integer — to be compared against the
truncating formulas the code computes.  `round` is Mathlib's
round-half-up. -/

/-- Spec wording for the text padding margin:
`max(2, round(0.15 × min(w, h)))`. -/
def specTextPad (w h : Nat) : ℤ := max 2 (round ((3 * min w h : ℚ) / 20))

/-- Spec wording for the face padding: `round(0.25 × w)`. -/
def specFacePad (w : Nat) : ℤ := round ((w : ℚ) / 4)

/-- Spec wording for the body-pass remap at scale 0.75: division by the
downscale factor "with rounding to the nearest integer pixel". -/
def specRemap (v : Nat) : ℤ := round ((v : ℚ) / (3 / 4))

/-! Helper lemmas -/

/-- Setting the lowest bit of a clamped strength yields an odd value that
stays within the clamp range (checked over the whole finite range). -/
lemma lorOne_bounds : ∀ m : Nat, m < 152 → 3 ≤ m →
    ((m ||| 1) % 2 = 1 ∧ 3 ≤ (m ||| 1) ∧ (m ||| 1) ≤ 151) := by decide

lemma maskNonempty_emptyMask (W H : Nat) :
    maskNonempty (emptyMask W H) = false := by
  simp [maskNonempty, emptyMask]

/-- The detection fold leaves the mask untouched when no hit survives the
filter. -/
lemma foldl_paint_no_survivor (hits : List TextHit)
    (hs : ∀ t ∈ hits, survives t = false) (mk : Mask) :
    hits.foldl (fun mk t => if survives t then paintHit mk t else mk) mk = mk := by
  induction hits generalizing mk with
  | nil => rfl
  | cons a l ih =>
    rw [List.foldl_cons, if_neg (by simp [hs a (List.mem_cons_self a l)])]
    exact ih (fun t ht => hs t (List.mem_cons_of_mem a ht)) mk

/-! Claims -/

/-- C7: for every integer `blurStrength` input, the value used as the
Gaussian kernel size — the endpoint clamp `max(3, min(151, b))` followed by
`_blur_region`'s `max(3, k | 1)` — is an odd integer, at least 3 and at most
151; in particular the boundary inputs 1, 2, 151, 152 and 200 yield kernel
sizes 3, 3, 151, 151 and 151. -/
theorem blurStrength_normalization (b : Int) :
    Odd (kernelOf (clampStrength b)) ∧
    3 ≤ kernelOf (clampStrength b) ∧ kernelOf (clampStrength b) ≤ 151 ∧
    kernelOf (clampStrength 1) = 3 ∧ kernelOf (clampStrength 2) = 3 ∧
    kernelOf (clampStrength 151) = 151 ∧ kernelOf (clampStrength 152) = 151 ∧
    kernelOf (clampStrength 200) = 151 := by
  have hlo : (3 : ℤ) ≤ clampStrength b := le_max_left _ _
  have hhi : clampStrength b ≤ 151 := max_le (by norm_num) (min_le_left _ _)
  obtain ⟨m, hm⟩ : ∃ m : Nat, clampStrength b = (m : ℤ) :=
    ⟨(clampStrength b).toNat, (Int.toNat_of_nonneg (by omega)).symm⟩
  have key := lorOne_bounds m (by omega) (by omega)
  have hlor : Int.lor (clampStrength b) 1 = ((m ||| 1 : Nat) : ℤ) := by
    rw [hm]; rfl
  have hker : kernelOf (clampStrength b) = ((m ||| 1 : Nat) : ℤ) := by
    unfold kernelOf
    rw [hlor]
    exact max_eq_right (by exact_mod_cast key.2.1)
  refine ⟨?_, ?_, ?_, by decide, by decide, by decide, by decide, by decide⟩
  · rw [hker, Int.odd_iff]; omega
  · rw [hker]; exact_mod_cast key.2.1
  · rw [hker]; exact_mod_cast key.2.2

/-- C8: `_blur_region` clamps the rectangle to the buffer, is the exact
identity (no error, no pixel change) when the clamped area is empty — which
covers rectangles fully outside the buffer — and otherwise keeps the
dimensions and every pixel outside the clamped sub-rectangle bit-identical,
while the pixels inside are exactly the output of the Gaussian smoother
applied with kernel size `max(3, k | 1)` to the clamped region of
interest. -/
theorem blurRegion_clamp_frame (g : Int → Buffer → Buffer) (b : Buffer)
    (x y w h k : Int) :
    ((min (b.W : Int) (x + w) ≤ max 0 x ∨ min (b.H : Int) (y + h) ≤ max 0 y) →
        blurRegion g b x y w h k = b) ∧
    (blurRegion g b x y w h k).W = b.W ∧
    (blurRegion g b x y w h k).H = b.H ∧
    (∀ r c : Nat,
        ¬((max 0 x).toNat ≤ c ∧ c < (min (b.W : Int) (x + w)).toNat ∧
            (max 0 y).toNat ≤ r ∧ r < (min (b.H : Int) (y + h)).toNat) →
        (blurRegion g b x y w h k).pix r c = b.pix r c) ∧
    (∀ r c : Nat,
        ((max 0 x).toNat ≤ c ∧ c < (min (b.W : Int) (x + w)).toNat ∧
            (max 0 y).toNat ≤ r ∧ r < (min (b.H : Int) (y + h)).toNat) →
        (blurRegion g b x y w h k).pix r c =
          (g (max 3 (Int.lor k 1))
            (roiOf b (max 0 y).toNat (max 0 x).toNat
              (min (b.H : Int) (y + h)).toNat
              (min (b.W : Int) (x + w)).toNat)).pix
            (r - (max 0 y).toNat) (c - (max 0 x).toNat)) := by
  by_cases hc : min (b.W : Int) (x + w) ≤ max 0 x ∨ min (b.H : Int) (y + h) ≤ max 0 y
  · have hid : blurRegion g b x y w h k = b := by
      unfold blurRegion
      exact if_pos hc
    refine ⟨fun _ => hid, by rw [hid], by rw [hid], fun r c _ => by rw [hid],
      fun r c hrc => ?_⟩
    exfalso
    omega
  · have hne : blurRegion g b x y w h k =
        ⟨b.W, b.H, fun r c =>
          if (max 0 x).toNat ≤ c ∧ c < (min (b.W : Int) (x + w)).toNat ∧
              (max 0 y).toNat ≤ r ∧ r < (min (b.H : Int) (y + h)).toNat then
            (g (max 3 (Int.lor k 1))
              (roiOf b (max 0 y).toNat (max 0 x).toNat
                (min (b.H : Int) (y + h)).toNat
                (min (b.W : Int) (x + w)).toNat)).pix
              (r - (max 0 y).toNat) (c - (max 0 x).toNat)
          else b.pix r c⟩ := by
      unfold blurRegion kernelOf
      exact if_neg hc
    refine ⟨fun hcc => absurd hcc hc, by rw [hne], by rw [hne],
      fun r c hrc => ?_, fun r c hrc => ?_⟩
    · rw [hne]
      exact if_neg hrc
    · rw [hne]
      exact if_pos hrc

/-- Witness for C8 at a rectangle fully outside a concrete 4×4 buffer:
the clamped area is empty, so the operator returns the buffer itself. -/
theorem blurRegion_clamp_frame_witness :
    blurRegion (fun _ _ => emptyBuffer) ⟨4, 4, fun _ _ => (9, 9, 9)⟩
      10 10 3 3 31 = ⟨4, 4, fun _ _ => (9, 9, 9)⟩ :=
  (blurRegion_clamp_frame (fun _ _ => emptyBuffer)
    ⟨4, 4, fun _ _ => (9, 9, 9)⟩ 10 10 3 3 31).1 (by decide)

/-- C1: assuming the external inpainter modifies only masked pixels,
every pixel outside the painted mask region — the union of the padded,
clamped text boxes of the surviving hits — is bit-identical in the buffer
returned by `scrub_text` to the input buffer. -/
theorem scrubText_outside_mask_unchanged (inpaint : Buffer → Mask → Buffer)
    (hits : List TextHit) (bgr : Buffer)
    (hInp : ∀ (b : Buffer) (mk : Mask) (r c : Nat),
      mk.m r c = false → (inpaint b mk).pix r c = b.pix r c) :
    ∀ r c : Nat, (buildMask bgr.W bgr.H hits).m r c = false →
      (scrubText inpaint hits bgr).pix r c = bgr.pix r c := by
  intro r c hrc
  show (if maskNonempty (buildMask bgr.W bgr.H hits) = true then
      inpaint bgr (buildMask bgr.W bgr.H hits) else bgr).pix r c = bgr.pix r c
  by_cases hm : maskNonempty (buildMask bgr.W bgr.H hits) = true
  · rw [if_pos hm]
    exact hInp bgr _ r c hrc
  · rw [if_neg hm]

/-- Witness for C1: a contract-satisfying inpainter (the identity), one
surviving hit on a 100×100 buffer, and the pixel `(0, 0)` far away from the
hit's painted box. -/
theorem scrubText_outside_mask_unchanged_witness :
    (buildMask 100 100 [⟨"hello", some 95, 50, 50, 20, 10⟩]).m 0 0 = false ∧
    (scrubText (fun b _ => b) [⟨"hello", some 95, 50, 50, 20, 10⟩]
      ⟨100, 100, fun r c => (r, c, 0)⟩).pix 0 0 = (0, 0, 0) := by
  refine ⟨by decide, ?_⟩
  rw [scrubText_outside_mask_unchanged (fun b _ => b)
    [⟨"hello", some 95, 50, 50, 20, 10⟩] ⟨100, 100, fun r c => (r, c, 0)⟩
    (fun _ _ _ _ _ => rfl) 0 0 (by decide)]

/-- C2: `process_image` runs text redaction first (iff `remove_text`),
then person redaction (iff `blur_people`), on the working buffer; with both
flags off it returns the decoded input buffer bit-identically. -/
theorem processImage_order (inpaint : Buffer → Mask → Buffer)
    (textHits : List TextHit) (g : Int → Buffer → Buffer)
    (faces : List FaceHit) (bodies : List BodyHit)
    (opts : Options) (bgr : Buffer) :
    processImage inpaint textHits g faces bodies opts bgr =
      (if opts.blur_people then
        scrubPeople g opts.blur_strength opts.detect_bodies faces bodies
          (if opts.remove_text then scrubText inpaint textHits bgr else bgr)
      else (if opts.remove_text then scrubText inpaint textHits bgr else bgr)) ∧
    (opts.remove_text = false → opts.blur_people = false →
      processImage inpaint textHits g faces bodies opts bgr = bgr) := by
  refine ⟨rfl, fun h1 h2 => ?_⟩
  simp [processImage, h1, h2]

/-- Witness for C2: with both flags off, a concrete 2×2 buffer passes
through `process_image` untouched. -/
theorem processImage_order_witness :
    processImage (fun b _ => b) [] (fun _ b => b) [] []
      ⟨false, false, 31, false⟩ ⟨2, 2, fun _ _ => (1, 2, 3)⟩ =
      ⟨2, 2, fun _ _ => (1, 2, 3)⟩ :=
  (processImage_order (fun b _ => b) [] (fun _ b => b) [] []
    ⟨false, false, 31, false⟩ ⟨2, 2, fun _ _ => (1, 2, 3)⟩).2 rfl rfl

/-- C3: when no detection hit has both non-whitespace text and numeric
confidence at least 60 (a missing or unparsable confidence counts as −1 and
is always rejected), `scrub_text` returns the input buffer unchanged and the
result does not depend on the inpainter at all — inpainting is never
invoked. -/
theorem scrubText_noop_no_confident_hits (hits : List TextHit) (bgr : Buffer)
    (hno : ∀ t ∈ hits, ¬(pyStrip t.text ≠ "" ∧ (60 : ℚ) ≤ confOf t)) :
    ∀ inpaint : Buffer → Mask → Buffer, scrubText inpaint hits bgr = bgr := by
  intro inpaint
  have hs : ∀ t ∈ hits, survives t = false := by
    intro t ht
    have h := hno t ht
    by_cases he : pyStrip t.text = ""
    · simp [survives, he]
    · have hconf : ¬((60 : ℚ) ≤ confOf t) := fun hcf => h ⟨he, hcf⟩
      simp [survives, hconf]
  have hmask : buildMask bgr.W bgr.H hits = emptyMask bgr.W bgr.H :=
    foldl_paint_no_survivor hits hs _
  show (if maskNonempty (buildMask bgr.W bgr.H hits) = true then
      inpaint bgr (buildMask bgr.W bgr.H hits) else bgr) = bgr
  rw [hmask, maskNonempty_emptyMask]
  rfl

/-- Witness for C3: two rejected hits — whitespace-only text with high
confidence, and real text with confidence 59 — leave a concrete buffer
unchanged under a destructive inpainter. -/
theorem scrubText_noop_no_confident_hits_witness :
    scrubText (fun _ _ => emptyBuffer)
      [⟨"  ", some 99, 5, 5, 10, 10⟩, ⟨"code", some 59, 5, 5, 10, 10⟩]
      ⟨32, 32, fun _ _ => (7, 7, 7)⟩ = ⟨32, 32, fun _ _ => (7, 7, 7)⟩ :=
  scrubText_noop_no_confident_hits
    [⟨"  ", some 99, 5, 5, 10, 10⟩, ⟨"code", some 59, 5, 5, 10, 10⟩]
    ⟨32, 32, fun _ _ => (7, 7, 7)⟩ (by decide) (fun _ _ => emptyBuffer)

/-- C9: the endpoint's stage chain is all-or-nothing: a successful
result means the decode, the enabled redaction stages and the encode all
succeeded in order, and an error in any stage makes the whole invocation
return exactly that error — no partially redacted buffer is ever
delivered. -/
theorem processE_all_or_nothing {P : Type} (decode : Except Err Buffer)
    (textFn peopleFn : Buffer → Except Err Buffer)
    (encodeFn : Buffer → Except Err P) (removeText blurPeople : Bool) :
    (∀ p, processE decode textFn peopleFn encodeFn removeText blurPeople = .ok p →
      ∃ b0 b1 b2, decode = .ok b0 ∧
        (if removeText then textFn b0 else .ok b0) = .ok b1 ∧
        (if blurPeople then peopleFn b1 else .ok b1) = .ok b2 ∧
        encodeFn b2 = .ok p) ∧
    (∀ e, decode = .error e →
      processE decode textFn peopleFn encodeFn removeText blurPeople = .error e) ∧
    (∀ b0 e, decode = .ok b0 →
      (if removeText then textFn b0 else .ok b0) = .error e →
      processE decode textFn peopleFn encodeFn removeText blurPeople = .error e) ∧
    (∀ b0 b1 e, decode = .ok b0 →
      (if removeText then textFn b0 else .ok b0) = .ok b1 →
      (if blurPeople then peopleFn b1 else .ok b1) = .error e →
      processE decode textFn peopleFn encodeFn removeText blurPeople = .error e) ∧
    (∀ b0 b1 b2 e, decode = .ok b0 →
      (if removeText then textFn b0 else .ok b0) = .ok b1 →
      (if blurPeople then peopleFn b1 else .ok b1) = .ok b2 →
      encodeFn b2 = .error e →
      processE decode textFn peopleFn encodeFn removeText blurPeople = .error e) := by
  unfold processE
  refine ⟨fun p hp => ?_, fun e he => ?_, fun b0 e hb0 hT => ?_,
    fun b0 b1 e hb0 hT hP => ?_, fun b0 b1 b2 e hb0 hT hP hE => ?_⟩
  · cases hd : decode with
    | error e0 => rw [hd] at hp; simp [Except.bind] at hp
    | ok b0 =>
      rw [hd] at hp
      simp only [Except.bind] at hp
      cases hT : (if removeText then textFn b0 else .ok b0) with
      | error e1 => rw [hT] at hp; simp [Except.bind] at hp
      | ok b1 =>
        rw [hT] at hp
        simp only [Except.bind] at hp
        cases hP : (if blurPeople then peopleFn b1 else .ok b1) with
        | error e2 => rw [hP] at hp; simp [Except.bind] at hp
        | ok b2 =>
          rw [hP] at hp
          simp only [Except.bind] at hp
          exact ⟨b0, b1, b2, rfl, hT, hP, hp⟩
  · rw [he]; rfl
  · rw [hb0]; simp only [Except.bind]; rw [hT]
  · rw [hb0]; simp only [Except.bind]; rw [hT]; simp only [Except.bind]
    rw [hP]
  · rw [hb0]; simp only [Except.bind]; rw [hT]; simp only [Except.bind]
    rw [hP]; simp only [Except.bind]; rw [hE]

/-- Witness for C9: a decode failure aborts the whole invocation with
exactly that error. -/
theorem processE_all_or_nothing_witness :
    processE (P := Buffer) (.error .decodeErr) (fun b => .ok b) (fun b => .ok b)
      (fun b => .ok b) true true = .error .decodeErr :=
  (processE_all_or_nothing (P := Buffer) (.error .decodeErr) (fun b => .ok b)
    (fun b => .ok b) (fun b => .ok b) true true).2.1 .decodeErr rfl

/-- C4 counterexample: the claim's padding margin
`max(2, round(0.15 × min(w, h)))` disagrees with the code at a box of
width and height 18: the code computes `max(2, int(18 * 0.15)) = 2`, the
claimed rounding gives `max(2, round(2.7)) = 3`. -/
theorem textPad_not_round : (padOf 18 18 : ℤ) ≠ specTextPad 18 18 := by
  have h1 : padOf 18 18 = 2 := rfl
  have h2 : specTextPad 18 18 = 3 := by
    unfold specTextPad
    norm_num [round_eq]
  rw [h1, h2]
  decide

/-- C4, amended: the padding margin is `max(2, ⌊0.15 × min(w, h)⌋)`
(truncation, not rounding); the expanded box is clamped at zero on the left
and top and its width and height are clamped against the buffer's far edge,
and the resulting rectangle is painted into the mask inclusive of its far
corner (OpenCV's filled-rectangle convention).  For a single surviving hit
whose detector box starts inside the buffer, a mask pixel is set exactly
when it lies in that inclusively painted rectangle. -/
theorem textMask_floor_pad_paint :
    (∀ w h : Nat, (padOf w h : ℤ) = max 2 ⌊(3 * min w h : ℚ) / 20⌋) ∧
    ∀ (W H : Nat) (t : TextHit), survives t = true → t.x < W → t.y < H →
      ∀ r c : Nat,
        ((buildMask W H [t]).m r c = true ↔
          ((t.x - padOf t.w t.h : ℕ) ≤ c ∧
            (c : ℤ) ≤ (t.x - padOf t.w t.h : ℕ) +
              min ((W : ℤ) - (t.x - padOf t.w t.h : ℕ))
                ((t.w : ℤ) + 2 * padOf t.w t.h) ∧
            c < W ∧
            (t.y - padOf t.w t.h : ℕ) ≤ r ∧
            (r : ℤ) ≤ (t.y - padOf t.w t.h : ℕ) +
              min ((H : ℤ) - (t.y - padOf t.w t.h : ℕ))
                ((t.h : ℤ) + 2 * padOf t.w t.h) ∧
            r < H)) := by
  constructor
  · intro w h
    unfold padOf
    have h1 : (3 * min w h : ℚ) / 20 = ((3 * min w h : ℕ) : ℚ) / ((20 : ℕ) : ℚ) := by
      push_cast
      ring
    rw [h1, ← Nat.floor_div_eq_div (α := ℚ) (3 * min w h) 20, Nat.cast_max,
      Int.natCast_floor_eq_floor (by positivity)]
    norm_num
  · intro W H t hs hx hy r c
    have hm : (buildMask W H [t]).m r c = paintRect W H t r c := by
      unfold buildMask
      rw [List.foldl_cons, if_pos hs, List.foldl_nil]
      simp [paintHit, emptyMask]
    rw [hm]
    unfold paintRect
    simp only [Bool.and_eq_true, decide_eq_true_eq]
    omega

/-- Witness for the amended C4: hit `"A"` at (30, 30) with box 18×18 and
confidence 90 on a 100×100 canvas gets margin 2, so the mask pixel at
row 30, column 28 (inside the padded box starting at column 28) is
painted. -/
theorem textMask_floor_pad_paint_witness :
    (buildMask 100 100 [⟨"A", some 90, 30, 30, 18, 18⟩]).m 30 28 = true :=
  (textMask_floor_pad_paint.2 100 100 ⟨"A", some 90, 30, 30, 18, 18⟩
    (by decide) (by decide) (by decide) 30 28).mpr (by decide)

/-- C5 counterexample: the claim's face padding `round(0.25 × w)`
disagrees with the code at width 27: the code computes `int(0.25 * 27) = 6`,
the claimed rounding gives `round(6.75) = 7`. -/
theorem facePad_not_round : (facePad 27 : ℤ) ≠ specFacePad 27 := by
  have h1 : facePad 27 = 6 := rfl
  have h2 : specFacePad 27 = 7 := by
    unfold specFacePad
    norm_num [round_eq]
  rw [h1, h2]
  decide

/-- C5, amended: the face pass expands each hit by
`pad = ⌊0.25 × w⌋` (truncation, not rounding) on all four sides, the
width-derived pad applying to the height as well; the claim's concrete
example stands: a hit (10, 10, 40, 40) on a 200×200 buffer gets pad 10 and
the blur is applied to exactly the rectangle clamped from (0,0) to
(60,60) — pixels outside it are untouched and pixels inside are the
smoother's output on that region. -/
theorem facePass_floor_pad :
    (∀ w : Nat, (facePad w : ℤ) = ⌊(w : ℚ) / 4⌋) ∧
    ∀ (g : Int → Buffer → Buffer) (k : Int) (b : Buffer),
      b.W = 200 → b.H = 200 → ∀ r c : Nat,
        (scrubPeople g k false [⟨10, 10, 40, 40⟩] [] b).pix r c =
          if r < 60 ∧ c < 60 then
            (g (kernelOf k) (roiOf b 0 0 60 60)).pix r c
          else b.pix r c := by
  constructor
  · intro w
    unfold facePad
    have h1 : (w : ℚ) / 4 = ((w : ℕ) : ℚ) / ((4 : ℕ) : ℚ) := by norm_num
    rw [h1, ← Nat.floor_div_eq_div (α := ℚ) w 4,
      Int.natCast_floor_eq_floor (by positivity)]
  · intro g k b hW hH r c
    have e0 : scrubPeople g k false [⟨10, 10, 40, 40⟩] [] b =
        faceStep g k b ⟨10, 10, 40, 40⟩ := rfl
    have e1 : faceStep g k b ⟨10, 10, 40, 40⟩ = blurRegion g b 0 0 60 60 k := by
      unfold faceStep facePad
      norm_num
    rw [e0, e1]
    unfold blurRegion
    rw [hW, hH]
    norm_num
    split_ifs with h1 h2 h2
    · rfl
    · omega
    · omega
    · rfl

/-- Witness for the amended C5: on a concrete constant 200×200 buffer
with the identity smoother, the pixel (100, 100) outside the clamped
rectangle keeps its value. -/
theorem facePass_floor_pad_witness :
    (scrubPeople (fun _ b => b) 31 false [⟨10, 10, 40, 40⟩] []
      ⟨200, 200, fun _ _ => (5, 6, 7)⟩).pix 100 100 = (5, 6, 7) := by
  have h := facePass_floor_pad.2 (fun _ b => b) 31
    ⟨200, 200, fun _ _ => (5, 6, 7)⟩ rfl rfl 100 100
  simpa using h

/-- C6 counterexample: the claim's remap "dividing by the downscale
factor with rounding to the nearest integer pixel" disagrees with the code
at coordinate 50: the code computes `int(50 / 0.75) = 66`, rounding to the
nearest integer gives `round(66.67) = 67`. -/
theorem bodyRemap_not_round : (remapCoord true 50 : ℤ) ≠ specRemap 50 := by
  have h1 : remapCoord true 50 = 66 := rfl
  have h2 : specRemap 50 = 67 := by
    unfold specRemap
    norm_num [round_eq]
  rw [h1, h2]
  decide

/-- C6, amended: when the buffer is downscaled (scale 0.75, applied
exactly when the longer side exceeds 900px), each surviving detection
coordinate is remapped by dividing by the factor and truncating
(`⌊v / 0.75⌋`), not rounding to nearest; the example (30, 30, 50, 50) maps
back to (40, 40, 66, 66), which is within ±1px of the claimed
(40, 40, 67, 67), and the surviving hit is blurred at exactly those
truncated coordinates. -/
theorem bodyRemap_truncates :
    (∀ v : Nat, (remapCoord true v : ℤ) = ⌊(v : ℚ) / (3 / 4)⌋) ∧
    (∀ b : Buffer, bodyScaled b = decide (900 < max b.H b.W)) ∧
    remapCoord true 30 = 40 ∧ remapCoord true 50 = 66 ∧
    |(remapCoord true 30 : ℤ) - 40| ≤ 1 ∧ |(remapCoord true 50 : ℤ) - 67| ≤ 1 ∧
    (∀ (g : Int → Buffer → Buffer) (k : Int) (b : Buffer) (wt : ℚ),
      ¬(wt < 1 / 2) →
      bodyStep g k true b ⟨30, 30, 50, 50, wt⟩ = blurRegion g b 40 40 66 66 k) := by
  refine ⟨?_, fun _ => rfl, rfl, rfl, by decide, by decide, ?_⟩
  · intro v
    unfold remapCoord
    have h1 : (v : ℚ) / (3 / 4) = ((4 * v : ℕ) : ℚ) / ((3 : ℕ) : ℚ) := by
      push_cast
      ring
    rw [if_pos rfl, h1, ← Nat.floor_div_eq_div (α := ℚ) (4 * v) 3,
      Int.natCast_floor_eq_floor (by positivity)]
  · intro g k b wt hwt
    unfold bodyStep
    rw [if_neg hwt]
    norm_num [remapCoord]

/-- Witness for the amended C6: a weight-1 hit at (30, 30, 50, 50) on a
concrete buffer is blurred at the truncated coordinates (40, 40, 66, 66). -/
theorem bodyRemap_truncates_witness :
    bodyStep (fun _ b => b) 31 true ⟨20, 20, fun _ _ => (1, 1, 1)⟩
      ⟨30, 30, 50, 50, 1⟩ =
      blurRegion (fun _ b => b) ⟨20, 20, fun _ _ => (1, 1, 1)⟩ 40 40 66 66 31 :=
  bodyRemap_truncates.2.2.2.2.2.2 (fun _ b => b) 31
    ⟨20, 20, fun _ _ => (1, 1, 1)⟩ 1 (by norm_num)

/-! C10 setting: the Person Redactor never writes the caller's buffer. -/

lemma foldl_set_preserve {α : Type} (step : List Buffer → α → List Buffer)
    (idx : Nat) (hstep : ∀ hp a j, j ≠ idx → (step hp a)[j]? = hp[j]?) :
    ∀ (l : List α) (hp : List Buffer) (j : Nat), j ≠ idx →
      (l.foldl step hp)[j]? = hp[j]? := by
  intro l
  induction l with
  | nil => intro hp j h; rfl
  | cons a l ih =>
    intro hp j h
    rw [List.foldl_cons, ih (step hp a) j h, hstep hp a j h]

lemma blurHeap_preserve (g : Int → Buffer → Buffer) (hp : List Buffer)
    (idx : Nat) (x y w h k : Int) (j : Nat) (hj : j ≠ idx) :
    (blurHeap g hp idx x y w h k)[j]? = hp[j]? :=
  List.getElem?_set_ne (Ne.symm hj)

/-- C10: `scrub_people` works on a copy: every buffer already in the
store before the call — in particular the caller's input buffer — is
bit-identical after the call; all face-pass and body-pass blurring mutates
only the freshly allocated copy, which is what is returned. -/
theorem scrubPeople_copies_input (g : Int → Buffer → Buffer) (k : Int)
    (detectBodies : Bool) (faces : List FaceHit) (bodies : List BodyHit)
    (heap : List Buffer) (src : Nat) (i : Nat) (hi : i < heap.length) :
    ((scrubPeopleHeap g k detectBodies faces bodies heap src).1)[i]? =
      heap[i]? := by
  have hne : i ≠ heap.length := Nat.ne_of_lt hi
  have hface : ∀ (hp : List Buffer) (f : FaceHit) (j : Nat), j ≠ heap.length →
      ((fun hp (f : FaceHit) =>
        let pad : Int := facePad f.w
        blurHeap g hp heap.length ((f.x : Int) - pad) ((f.y : Int) - pad)
          ((f.w : Int) + 2 * pad) ((f.h : Int) + 2 * pad) k) hp f)[j]? = hp[j]? := by
    intro hp f j hj
    exact blurHeap_preserve g hp heap.length _ _ _ _ k j hj
  cases detectBodies with
  | false =>
    show ((faces.foldl _ (heap ++ [heap.getD src emptyBuffer])))[i]? = heap[i]?
    rw [foldl_set_preserve _ heap.length hface faces _ i hne,
      List.getElem?_append_left hi]
  | true =>
    show ((bodies.foldl _ (faces.foldl _ (heap ++ [heap.getD src emptyBuffer]))))[i]? =
      heap[i]?
    rw [foldl_set_preserve _ heap.length ?hbody bodies _ i hne,
      foldl_set_preserve _ heap.length hface faces _ i hne,
      List.getElem?_append_left hi]
    case hbody =>
      intro hp hb j hj
      dsimp only
      split
      · rfl
      · exact blurHeap_preserve g hp heap.length _ _ _ _ k j hj

/-- Witness for C10: a store holding one concrete buffer keeps that
buffer unchanged across a `scrub_people` call that blurs a face hit on the
copy. -/
theorem scrubPeople_copies_input_witness :
    ((scrubPeopleHeap (fun _ b => b) 31 true [⟨0, 0, 8, 8⟩] [⟨0, 0, 4, 4, 1⟩]
      [⟨16, 16, fun _ _ => (2, 3, 4)⟩] 0).1)[0]? =
      some ⟨16, 16, fun _ _ => (2, 3, 4)⟩ := by
  rw [scrubPeople_copies_input (fun _ b => b) 31 true [⟨0, 0, 8, 8⟩]
    [⟨0, 0, 4, 4, 1⟩] [⟨16, 16, fun _ _ => (2, 3, 4)⟩] 0 0 (by decide)]
  rfl

end PhotoScrubber
